import Mathlib

/-!
Shallow embedding of the per-star grid-marginalization core of `bayestar`
(`src/star_exact.cpp`, with the observed-star record from `src/data.h`).

Machine `double`s are modelled as exact reals.  Per-band arrays of size
`NBANDS` are modelled as functions `ℕ → ℝ` together with an explicit band
count `n`; every loop `for(i=0; i<NBANDS; i++)` becomes a sum or filter over
`Finset.range n`.  External collaborators (`TExtinctionModel::get_A`,
`TStellarModel`, `TGalacticLOSModel`, the `TRect` grid utility and the OpenCV
image primitives) are not part of the two source files, so they are modelled
from the specification where stated below.
-/

namespace Bayestar

noncomputable section

/-- Observed star record (`data.h`, `TStellarData::TMagnitudes`): per-band
magnitudes `m` and errors `err`, parallax `pi` and parallax error `pierr`. -/
structure TMagnitudes where
  m : ℕ → ℝ
  err : ℕ → ℝ
  pi : ℝ
  pierr : ℝ

/-- Candidate stellar type (`TSED`): absolute magnitude per band. -/
structure TSED where
  absmag : ℕ → ℝ

/-- Embedding of `star_covariance` (star_exact.cpp:43-65): sums `1/σᵢ²`, `Aᵢ/σᵢ²` and
`Aᵢ²/σᵢ²` over all `NBANDS` bands, where `Aᵢ = ext_model.get_A(RV, i)`, and
returns them as the three inverse-covariance scalars
`(inv_cov_00, inv_cov_01, inv_cov_11)`. -/
def star_covariance (n : ℕ) (get_A : ℝ → ℕ → ℝ) (RV : ℝ) (obs : TMagnitudes) :
    ℝ × ℝ × ℝ :=
  ( ∑ i ∈ Finset.range n, 1 / (obs.err i * obs.err i)
  , ∑ i ∈ Finset.range n, get_A RV i * (1 / (obs.err i * obs.err i))
  , ∑ i ∈ Finset.range n, get_A RV i * get_A RV i * (1 / (obs.err i * obs.err i)) )

/-- The two right-hand-side sums of the normal equations accumulated by
`star_max_likelihood` (star_exact.cpp:73-83): `Σ (mᵢ - Mᵢ)/σᵢ²` and
`Σ (mᵢ - Mᵢ)·Aᵢ/σᵢ²`, over all `NBANDS` bands. -/
def fit_sums (n : ℕ) (get_A : ℝ → ℕ → ℝ) (RV : ℝ) (sed : TSED) (obs : TMagnitudes) :
    ℝ × ℝ :=
  ( ∑ i ∈ Finset.range n, (obs.m i - sed.absmag i) * (1 / (obs.err i * obs.err i))
  , ∑ i ∈ Finset.range n,
      (obs.m i - sed.absmag i) * get_A RV i * (1 / (obs.err i * obs.err i)) )

/-- The chi-square sum of `star_max_likelihood` (star_exact.cpp:98-108):
`Σ (dmᵢ - E·Aᵢ - μ)²/σᵢ²` over all `NBANDS` bands, at a given `(μ, E)`. -/
def chi2_sum (n : ℕ) (get_A : ℝ → ℕ → ℝ) (RV : ℝ) (sed : TSED) (obs : TMagnitudes)
    (mu E : ℝ) : ℝ :=
  ∑ i ∈ Finset.range n,
    ((obs.m i - sed.absmag i) - E * get_A RV i - mu)
      * ((obs.m i - sed.absmag i) - E * get_A RV i - mu)
      * (1 / (obs.err i * obs.err i))

/-- Embedding of `star_max_likelihood` (star_exact.cpp:67-109): closed-form ML `(μ, E)` and
chi-square for one candidate SED, given the three inverse-covariance scalars.
Follows the source exactly: `μ₀ = Σ(Δᵢ/σᵢ²)/inv_cov_00`,
`E₀ = Σ(Δᵢ·Aᵢ/σᵢ²)/inv_cov_11`, `C₀₁ = inv_cov_01/inv_cov_00`,
`C₁₀ = inv_cov_01/inv_cov_11`, then the explicit 2×2 inverse
`(μ, E) = (1 - C₀₁·C₁₀)⁻¹ · (μ₀ - C₀₁·E₀, E₀ - C₁₀·μ₀)`. -/
def star_max_likelihood (n : ℕ) (get_A : ℝ → ℕ → ℝ) (RV : ℝ) (sed : TSED)
    (obs : TMagnitudes) (inv_cov_00 inv_cov_01 inv_cov_11 : ℝ) : ℝ × ℝ × ℝ :=
  let s := fit_sums n get_A RV sed obs
  let mu_0 := s.1 / inv_cov_00
  let E_0 := s.2 / inv_cov_11
  let C_01 := inv_cov_01 / inv_cov_00
  let C_10 := inv_cov_01 / inv_cov_11
  let C_det_inv := 1 / (1 - C_01 * C_10)
  let mu := C_det_inv * (mu_0 - C_01 * E_0)
  let E := C_det_inv * (E_0 - C_10 * mu_0)
  (mu, E, chi2_sum n get_A RV sed obs mu E)

/-- Spec's claimed version of the covariance sums, for comparison: the same
three scalars but "summed over non-missing bands only", a band being missing
when its error is ≥ 1e9. -/
def star_covariance_nonmissing_spec (n : ℕ) (get_A : ℝ → ℕ → ℝ) (RV : ℝ)
    (obs : TMagnitudes) : ℝ × ℝ × ℝ :=
  ( ∑ i ∈ (Finset.range n).filter (fun i => ¬ ((10:ℝ)^9 ≤ obs.err i)),
      1 / (obs.err i * obs.err i)
  , ∑ i ∈ (Finset.range n).filter (fun i => ¬ ((10:ℝ)^9 ≤ obs.err i)),
      get_A RV i * (1 / (obs.err i * obs.err i))
  , ∑ i ∈ (Finset.range n).filter (fun i => ¬ ((10:ℝ)^9 ≤ obs.err i)),
      get_A RV i * get_A RV i * (1 / (obs.err i * obs.err i)) )

/-- The passband count of `integrate_ML_solution` (star_exact.cpp:491-497):
bands with `err > 1e9` are skipped (the `isnan`/`isinf` guards have no
counterpart among exact reals). -/
def n_passbands (n : ℕ) (obs : TMagnitudes) : ℕ :=
  ((Finset.range n).filter (fun i => ¬ ((10:ℝ)^9 < obs.err i))).card

/-- The determinant divided by in the extra-diagonal-broadening branch of
`gaussian_filter` (star_exact.cpp:259 and again at line 267):
`inv_cov_00 * inv_cov_11 - inv_cov_01 * inv_cov_01`, with no regularization
term added. -/
def gf_broaden_det (ic00 ic01 ic11 : ℝ) : ℝ := ic00 * ic11 - ic01 * ic01

/-- The broadening branch of `gaussian_filter` (star_exact.cpp:251-272): when
`add_diagonal > 0`, invert the inverse covariance, add the squared broadening
term to each diagonal, and invert back.  Both inversions divide by
`gf_broaden_det` of the matrix being inverted. -/
def gf_broadened (ic00 ic01 ic11 add_diagonal dx0 dx1 : ℝ) : ℝ × ℝ × ℝ :=
  if 0 < add_diagonal then
    let diag0 := add_diagonal * dx0
    let diag1 := add_diagonal * dx1
    let det := gf_broaden_det ic00 ic01 ic11
    let cov_00 := ic11 / det
    let cov_11 := ic00 / det
    let cov_01 := -ic01 / det
    let cov_00' := cov_00 + diag0 * diag0
    let cov_11' := cov_11 + diag1 * diag1
    let det2 := gf_broaden_det cov_00' cov_01 cov_11'
    (cov_11' / det2, -cov_01 / det2, cov_00' / det2)
  else (ic00, ic01, ic11)

/-- The determinant used for the per-axis sigmas in `gaussian_filter`
(star_exact.cpp:275): the raw determinant plus the regularization `1e-5`. -/
def gf_sigma_det (b00 b01 b11 : ℝ) : ℝ := b00 * b11 - b01 * b01 + 1 / 100000

/-- Per-axis standard deviations of `gaussian_filter` (star_exact.cpp:276-279):
`σ₀ = sqrt(b11/det)`, `σ₁ = sqrt(b00/det)` with the regularized determinant. -/
def gf_sigma (b00 b01 b11 : ℝ) : ℝ × ℝ :=
  (Real.sqrt (b11 / gf_sigma_det b00 b01 b11),
   Real.sqrt (b00 / gf_sigma_det b00 b01 b11))

/-- Kernel half-width per axis (star_exact.cpp:285-287):
`max(min_width, ceil(n_sigma * sigma / dx))`. -/
def gf_width (min_width : ℕ) (n_sigma sigma dx : ℝ) : ℕ :=
  max min_width (Int.toNat ⌈n_sigma * sigma / dx⌉)

/-- The supersampled Gaussian evaluation of `gaussian_filter`
(star_exact.cpp:298-336): offset `(i - w0) * dx / subsample` from the
supersampled center `w0 = 0.5*(w_sub - 1)`, then
`exp(-0.5*(cxx + 2*cxy + cyy))`. -/
def gf_img_sub (b00 b01 b11 dx0 dx1 : ℝ) (subsample w_sub h_sub : ℕ) (i j : ℕ) : ℝ :=
  let w0 : ℝ := (1/2) * ((w_sub : ℝ) - 1)
  let h0 : ℝ := (1/2) * ((h_sub : ℝ) - 1)
  let dx := ((i : ℝ) - w0) * dx0 / (subsample : ℝ)
  let dy := ((j : ℝ) - h0) * dx1 / (subsample : ℝ)
  Real.exp (-(1/2) * (b00 * dx * dx + 2 * (b01 * dx * dy) + b11 * dy * dy))

/-- Modelled from the spec: `cv::resize(..., cv::INTER_AREA)` (OpenCV, not part
of this repository) at an exact integer decimation factor, per spec §9: each
down-sampled cell is the average of its `subsample × subsample` supersampled
block (area decimation, not point resampling). -/
def gf_area_downsample (f : ℕ → ℕ → ℝ) (s : ℕ) (i j : ℕ) : ℝ :=
  (∑ a ∈ Finset.range s, ∑ b ∈ Finset.range s, f (s * i + a) (s * j + b))
    / (s * s : ℝ)

/-- The smoothing kernel built by `gaussian_filter`: half-widths per axis and
the kernel image, indexed `0 ≤ i ≤ 2*width0`, `0 ≤ j ≤ 2*width1` with the
center at `(width0, width1)`. -/
structure GFKernel where
  width0 : ℕ
  width1 : ℕ
  img : ℕ → ℕ → ℝ

/-- Rectangular grid geometry.  Modelled from the spec (the `TRect` class is
not among the source files): axis minima/maxima, bin counts, and bin widths
per axis. -/
structure TRect where
  min0 : ℝ
  min1 : ℝ
  max0 : ℝ
  max1 : ℝ
  N0 : ℕ
  N1 : ℕ
  dx0 : ℝ
  dx1 : ℝ

/-- Modelled from the spec: the `TRect` constructor used at
star_exact.cpp:521-524, with bin width per axis = axis span / bin count. -/
def mkTRect (min0 min1 max0 max1 : ℝ) (N0 N1 : ℕ) : TRect :=
  { min0 := min0, min1 := min1, max0 := max0, max1 := max1, N0 := N0, N1 := N1,
    dx0 := (max0 - min0) / (N0 : ℝ), dx1 := (max1 - min1) / (N1 : ℝ) }

/-- Spec's claimed version of the broadening branch, for comparison: identical
to `gf_broadened` except that, per the spec's invariant, the tiny positive
regularization `1e-5` is added to each determinant before any
inversion-derived quantity is computed from it. -/
def gf_broadened_reg_spec (ic00 ic01 ic11 add_diagonal dx0 dx1 : ℝ) : ℝ × ℝ × ℝ :=
  if 0 < add_diagonal then
    let diag0 := add_diagonal * dx0
    let diag1 := add_diagonal * dx1
    let det := gf_broaden_det ic00 ic01 ic11 + 1 / 100000
    let cov_00 := ic11 / det
    let cov_11 := ic00 / det
    let cov_01 := -ic01 / det
    let cov_00' := cov_00 + diag0 * diag0
    let cov_11' := cov_11 + diag1 * diag1
    let det2 := gf_broaden_det cov_00' cov_01 cov_11' + 1 / 100000
    (cov_11' / det2, -cov_01 / det2, cov_00' / det2)
  else (ic00, ic01, ic11)

/-- Half-width of the `gaussian_filter` kernel along axis 0: `gf_width` at the
first regularized sigma of the (possibly broadened) inverse covariance. -/
def gf_width0 (ic00 ic01 ic11 : ℝ) (rect : TRect) (n_sigma : ℝ) (min_width : ℕ)
    (add_diagonal : ℝ) : ℕ :=
  gf_width min_width n_sigma
    (gf_sigma (gf_broadened ic00 ic01 ic11 add_diagonal rect.dx0 rect.dx1).1
      (gf_broadened ic00 ic01 ic11 add_diagonal rect.dx0 rect.dx1).2.1
      (gf_broadened ic00 ic01 ic11 add_diagonal rect.dx0 rect.dx1).2.2).1 rect.dx0

/-- Half-width of the `gaussian_filter` kernel along axis 1. -/
def gf_width1 (ic00 ic01 ic11 : ℝ) (rect : TRect) (n_sigma : ℝ) (min_width : ℕ)
    (add_diagonal : ℝ) : ℕ :=
  gf_width min_width n_sigma
    (gf_sigma (gf_broadened ic00 ic01 ic11 add_diagonal rect.dx0 rect.dx1).1
      (gf_broadened ic00 ic01 ic11 add_diagonal rect.dx0 rect.dx1).2.1
      (gf_broadened ic00 ic01 ic11 add_diagonal rect.dx0 rect.dx1).2.2).2 rect.dx1

/-- The unnormalized downsampled kernel of `gaussian_filter`
(star_exact.cpp:295-341): the supersampled Gaussian at
`(subsample*(2*width0+1)) × (subsample*(2*width1+1))` resolution, decimated
by area averaging. -/
def gf_down (ic00 ic01 ic11 : ℝ) (rect : TRect) (n_sigma : ℝ) (min_width : ℕ)
    (add_diagonal : ℝ) (subsample : ℕ) (i j : ℕ) : ℝ :=
  gf_area_downsample
    (gf_img_sub (gf_broadened ic00 ic01 ic11 add_diagonal rect.dx0 rect.dx1).1
      (gf_broadened ic00 ic01 ic11 add_diagonal rect.dx0 rect.dx1).2.1
      (gf_broadened ic00 ic01 ic11 add_diagonal rect.dx0 rect.dx1).2.2
      rect.dx0 rect.dx1 subsample
      (subsample * (2 * gf_width0 ic00 ic01 ic11 rect n_sigma min_width add_diagonal + 1))
      (subsample * (2 * gf_width1 ic00 ic01 ic11 rect n_sigma min_width add_diagonal + 1)))
    subsample i j

/-- Embedding of `gaussian_filter` (star_exact.cpp:245-348): optionally
broaden the inverse covariance, compute regularized per-axis sigmas and
half-widths, evaluate the unnormalized Gaussian at `subsample×` resolution,
downsample by area averaging, and normalize by the value at the center bin
`(width0, width1)` (star_exact.cpp:344). -/
def gaussian_filter (inv_cov_00 inv_cov_01 inv_cov_11 : ℝ) (rect : TRect)
    (n_sigma : ℝ) (min_width : ℕ) (add_diagonal : ℝ) (subsample : ℕ) : GFKernel :=
  { width0 := gf_width0 inv_cov_00 inv_cov_01 inv_cov_11 rect n_sigma min_width add_diagonal
  , width1 := gf_width1 inv_cov_00 inv_cov_01 inv_cov_11 rect n_sigma min_width add_diagonal
  , img := fun i j =>
      gf_down inv_cov_00 inv_cov_01 inv_cov_11 rect n_sigma min_width add_diagonal subsample i j
        / gf_down inv_cov_00 inv_cov_01 inv_cov_11 rect n_sigma min_width add_diagonal subsample
            (gf_width0 inv_cov_00 inv_cov_01 inv_cov_11 rect n_sigma min_width add_diagonal)
            (gf_width1 inv_cov_00 inv_cov_01 inv_cov_11 rect n_sigma min_width add_diagonal) }

/-- A per-star density surface: a 2D accumulator grid, zero outside the bins
that have been written. -/
abbrev Surface := ℤ → ℤ → ℝ

/-- Modelled from the spec: `TRect::get_interpolant` (§6 grid-geometry
collaborator, not among the source files): bilinear bin/fractional-offset
lookup `(x, y) ↦ (bin_x, bin_y, frac_x, frac_y)` with an in-bounds flag,
in-bounds meaning all four bins of the bilinear deposit
`(bin, bin+1)` per axis lie inside the grid. -/
def get_interpolant (rect : TRect) (x y : ℝ) : Option (ℕ × ℕ × ℝ × ℝ) :=
  let fx := (x - rect.min0) / rect.dx0
  let fy := (y - rect.min1) / rect.dx1
  let i0 := ⌊fx⌋
  let i1 := ⌊fy⌋
  if 0 ≤ i0 ∧ i0 + 1 ≤ (rect.N0 : ℤ) - 1 ∧ 0 ≤ i1 ∧ i1 + 1 ≤ (rect.N1 : ℤ) - 1 then
    some (i0.toNat, i1.toNat, fx - (i0 : ℝ), fy - (i1 : ℝ))
  else none

/-- One recorded grid cell of `integrate_ML_solution` (star_exact.cpp:425-428):
the ML `(E, μ)`, the chi-square and the prior for that stellar-type cell. -/
structure FitRecord where
  E : ℝ
  mu : ℝ
  chi2 : ℝ
  prior : ℝ

/-- Modelled from the spec: the stellar-type library collaborator (§6):
`get_sed` returns the SED and the `(Mr, FeH)` coordinates of a grid cell, or
nothing when the cell is absent; plus grid dimensions and the
luminosity-function log-density. -/
structure TStellarModel where
  N_Mr : ℕ
  N_FeH : ℕ
  get_sed : ℕ → ℕ → Option (TSED × ℝ × ℝ)
  get_log_lf : ℝ → ℝ

/-- Modelled from the spec: the Galactic-prior collaborator (§6):
`log_prior(μ, absolute_magnitude, metallicity)`. -/
structure TGalacticLOSModel where
  log_prior_emp : ℝ → ℝ → ℝ → ℝ

/-- The first pass of `integrate_ML_solution` (star_exact.cpp:394-432):
sweep the `(Mr, FeH)` grid row by row, skip absent SEDs, and record
`(E, μ, chi², prior)` for every available cell.  The prior follows
star_exact.cpp:413-420: the Galactic prior plus luminosity-function term when
`use_priors`, and the Gaussian parallax log-likelihood with
`π_μ = 10^(-(μ+5)/5)` when `use_gaia`. -/
def ml_records (n : ℕ) (get_A : ℝ → ℕ → ℝ) (sm : TStellarModel)
    (los : TGalacticLOSModel) (obs : TMagnitudes) (ic00 ic01 ic11 : ℝ)
    (use_priors use_gaia : Bool) (RV : ℝ) : List FitRecord :=
  (List.range sm.N_Mr).flatMap fun Mr_idx =>
    (List.range sm.N_FeH).filterMap fun FeH_idx =>
      match sm.get_sed Mr_idx FeH_idx with
      | none => none
      | some (sed, Mr, FeH) =>
        let f := star_max_likelihood n get_A RV sed obs ic00 ic01 ic11
        let mu := f.1
        let E := f.2.1
        let chi2 := f.2.2
        let prior1 : ℝ :=
          if use_priors then los.log_prior_emp mu Mr FeH + sm.get_log_lf Mr else 0
        let pi_mu := Real.rpow 10 (-(mu + 5) / 5)
        let prior := prior1 +
          (if use_gaia then
            -(1/2) * (obs.pi - pi_mu) * (obs.pi - pi_mu) / (obs.pierr * obs.pierr)
           else 0)
        some ⟨E, mu, chi2, prior⟩

/-- The value of `*std::min_element` over a possibly-empty list: `none` models
the undefined dereference of the end iterator on an empty range. -/
def listMin : List ℝ → Option ℝ
  | [] => none
  | x :: xs =>
    match listMin xs with
    | none => some x
    | some m => some (min x m)

/-- The value of `*std::max_element` over a possibly-empty list: `none` models
the undefined dereference of the end iterator on an empty range. -/
def listMax : List ℝ → Option ℝ
  | [] => none
  | x :: xs =>
    match listMax xs with
    | none => some x
    | some m => some (max x m)

/-- The bilinear-deposit distribution of one recorded cell
(star_exact.cpp:450-472): zero everywhere when the cell's `(E, μ)` is out of
bounds, otherwise the four area weights `(1-a0)(1-a1), a0(1-a1), (1-a0)a1,
a0·a1` at the four enclosing bins. -/
def bilinCoeff (rect : TRect) (r : FitRecord) (x y : ℤ) : ℝ :=
  match get_interpolant rect r.E r.mu with
  | none => 0
  | some (i0, i1, a0, a1) =>
      (if x = (i0 : ℤ) ∧ y = (i1 : ℤ) then (1 - a0) * (1 - a1) else 0)
    + (if x = (i0 : ℤ) + 1 ∧ y = (i1 : ℤ) then a0 * (1 - a1) else 0)
    + (if x = (i0 : ℤ) ∧ y = (i1 : ℤ) + 1 then (1 - a0) * a1 else 0)
    + (if x = (i0 : ℤ) + 1 ∧ y = (i1 : ℤ) + 1 then a0 * a1 else 0)

/-- One deposit step of `integrate_ML_solution` (star_exact.cpp:450-472): if
the record's `(E, μ)` is in bounds, compute
`p = exp(-0.5*(chi² - chi²_min) + (prior - prior_max))` and scatter it over
the four enclosing bins; otherwise leave the image unchanged. -/
def depositRecord (rect : TRect) (chi2_min prior_max : ℝ) (img : Surface)
    (r : FitRecord) : Surface :=
  match get_interpolant rect r.E r.mu with
  | none => img
  | some (i0, i1, a0, a1) =>
    let p := Real.exp (-(1/2) * (r.chi2 - chi2_min) + (r.prior - prior_max))
    fun x y => img x y
      + (if x = (i0 : ℤ) ∧ y = (i1 : ℤ) then (1 - a0) * (1 - a1) * p else 0)
      + (if x = (i0 : ℤ) + 1 ∧ y = (i1 : ℤ) then a0 * (1 - a1) * p else 0)
      + (if x = (i0 : ℤ) ∧ y = (i1 : ℤ) + 1 then (1 - a0) * a1 * p else 0)
      + (if x = (i0 : ℤ) + 1 ∧ y = (i1 : ℤ) + 1 then a0 * a1 * p else 0)

/-- The full deposit pass of `integrate_ML_solution`: fold the deposits over
all recorded cells, starting from the zero-initialized surface
(star_exact.cpp:378, 450-473). -/
def deposit_surface (rect : TRect) (chi2_min prior_max : ℝ)
    (records : List FitRecord) : Surface :=
  records.foldl (depositRecord rect chi2_min prior_max) (fun _ _ => 0)

/-- Modelled from the spec: `cv::filter2D` (OpenCV, not part of this
repository), per spec §4.5: 2D correlation of the surface with the kernel,
anchored at the kernel center; the surface is zero outside its written bins. -/
def filter2D (ker : GFKernel) (img : Surface) : Surface :=
  fun x y =>
    ∑ i ∈ Finset.range (2 * ker.width0 + 1), ∑ j ∈ Finset.range (2 * ker.width1 + 1),
      ker.img i j * img (x + (i : ℤ) - (ker.width0 : ℤ)) (y + (j : ℤ) - (ker.width1 : ℤ))

/-- Embedding of `integrate_ML_solution` (star_exact.cpp:353-505): compute the covariance
once, record every available grid cell, reduce `prior_max`/`chi2_min` over the
records (`none` models the undefined empty-range reduction), deposit every
record, smooth with the covariance kernel, and return the smoothed surface
together with `chi2_min / n_passbands`.  The kernel call mirrors
star_exact.cpp:478-480, where the argument list
`(inv_cov_11, inv_cov_01, inv_cov_00, rect, img, 5, 2, 1.0, verbosity)` binds
`n_sigma = 5`, `min_width = 2`, `add_diagonal = 1.0` and `subsample =
verbosity` (the defaulted `subsample` parameter receives the `verbosity`
argument). -/
def integrate_ML_solution (n : ℕ) (get_A : ℝ → ℕ → ℝ) (sm : TStellarModel)
    (los : TGalacticLOSModel) (obs : TMagnitudes) (rect : TRect)
    (use_priors use_gaia : Bool) (RV : ℝ) (verbosity : ℕ) :
    Option (Surface × ℝ) :=
  let ic := star_covariance n get_A RV obs
  let records := ml_records n get_A sm los obs ic.1 ic.2.1 ic.2.2 use_priors use_gaia RV
  match listMax (records.map FitRecord.prior), listMin (records.map FitRecord.chi2) with
  | some prior_max, some chi2_min =>
    let deposited := deposit_surface rect chi2_min prior_max records
    let cov_img := gaussian_filter ic.2.2 ic.2.1 ic.1 rect 5 2 1 verbosity
    some (filter2D cov_img deposited, chi2_min / (n_passbands n obs : ℝ))
  | _, _ => none

/-- Modelled from the spec: the `TEBVSmoothing` collaborator (not among the
source files): the flag `pct_smoothing_max` and `calc_pct_smoothing(nside,
E_min, E_max, N_E) → per-bin base smoothing widths` derived from the pixel's
angular resolution. -/
structure TEBVSmoothing where
  pct_smoothing_max : ℝ
  calc_pct_smoothing : ℕ → ℝ → ℝ → ℕ → List ℝ

/-- The in-place rescaling `sigma_pix[i] *= i` of `grid_eval_stars`
(star_exact.cpp:565-567). -/
def ebv_sigma_scaled (sigma : List ℝ) : List ℝ :=
  sigma.enum.map fun p => p.2 * (p.1 : ℝ)

/-- The output grid of `grid_eval_stars` (star_exact.cpp:521-524):
`(E, DM) ∈ [-0.2, 7.2] × [3.75, 19.25]` with `740 × 124` bins. -/
def grid_eval_rect : TRect := mkTRect (-0.2) 3.75 7.2 19.25 740 124

/-- Embedding of `grid_eval_stars` (star_exact.cpp:507-610): evaluate every star's surface
with `integrate_ML_solution` on the fixed output grid, collect the per-star
chi-squares, crop, and - when `pct_smoothing_max > 0` - apply the single
pixel-wide smoothing pass along the extinction axis with the index-scaled
widths.  `crop_op` and `smooth_op` model the image-stack container's own
cropping/smoothing primitives, out of scope per spec §1, as opaque
collaborators; `none` propagates a star whose grid reduction is undefined. -/
def grid_eval_stars (n : ℕ) (get_A : ℝ → ℕ → ℝ) (los : TGalacticLOSModel)
    (sm : TStellarModel) (stars : List TMagnitudes) (nside : ℕ)
    (ebv : TEBVSmoothing)
    (crop_op : List Surface → TRect → ℝ → ℝ → ℝ → ℝ → List Surface × TRect)
    (smooth_op : List ℝ → List Surface → List Surface)
    (use_priors use_gaia : Bool) (RV : ℝ) (verbosity : ℕ) :
    Option (List Surface × List ℝ) :=
  match stars.mapM (fun s =>
      integrate_ML_solution n get_A sm los s grid_eval_rect use_priors use_gaia RV verbosity) with
  | none => none
  | some results =>
    let surfs := results.map Prod.fst
    let chi2 := results.map Prod.snd
    let cropped := crop_op surfs grid_eval_rect 0 7 4 19
    let surfs2 :=
      if 0 < ebv.pct_smoothing_max then
        smooth_op
          (ebv_sigma_scaled
            (ebv.calc_pct_smoothing nside cropped.2.min0 cropped.2.max0 cropped.2.N0))
          cropped.1
      else cropped.1
    some (surfs2, chi2)

/-- Concrete two-band star whose second band carries the missing-band sentinel
error `1e9`. -/
def obsC1 : TMagnitudes :=
  { m := fun _ => 0, err := fun i => if i = 0 then 1 else 10^9, pi := 0, pierr := 1 }

/-- Concrete extinction coefficients for the two-band examples:
`A i = i` (band 0 insensitive to extinction, band 1 with unit coefficient). -/
def gC2 : ℝ → ℕ → ℝ := fun _ i => (i : ℝ)

/-- Concrete SED with zero absolute magnitude in every band. -/
def sedC2 : TSED := { absmag := fun _ => 0 }

/-- Concrete two-band star generated noiselessly from `sedC2` at
`μ = 10`, `E = 2` under the coefficients `gC2`, with unit errors. -/
def obsC2 : TMagnitudes :=
  { m := fun i => 10 + 2 * (i : ℝ), err := fun _ => 1, pi := 0, pierr := 1 }

/-- Concrete stellar library with a single `(Mr, FeH)` grid cell holding
`sedC2`, and zero luminosity-function log-density. -/
def smC : TStellarModel :=
  { N_Mr := 1, N_FeH := 1, get_sed := fun _ _ => some (sedC2, 0, 0), get_log_lf := fun _ => 0 }

/-- Concrete stellar library whose every SED lookup fails. -/
def smFail : TStellarModel :=
  { N_Mr := 1, N_FeH := 1, get_sed := fun _ _ => none, get_log_lf := fun _ => 0 }

/-- Concrete Galactic-prior model with zero log-density. -/
def losC : TGalacticLOSModel := { log_prior_emp := fun _ _ _ => 0 }

/-- Concrete 3×3 output grid over `(E, μ) ∈ [0,3] × [0,3]` with unit bins. -/
def rectC : TRect := mkTRect 0 0 3 3 3 3

/-- Concrete star whose every band carries an error beyond the missing-band
sentinel (`2e9 > 1e9`): zero non-missing bands. -/
def obsC6 : TMagnitudes :=
  { m := fun _ => 0, err := fun _ => 2 * 10^9, pi := 0, pierr := 1 }

/-- Concrete star whose ML solution `(μ, E) = (100, 0)` against `sedC2` falls
outside the μ-range of `rectC` for every grid cell. -/
def obsC7 : TMagnitudes :=
  { m := fun _ => 100, err := fun _ => 1, pi := 0, pierr := 1 }

/-- Concrete extinction-axis smoothing collaborator: smoothing enabled,
empty base-width vector. -/
def ebvC : TEBVSmoothing := { pct_smoothing_max := 1, calc_pct_smoothing := fun _ _ _ _ => [] }

/-- Concrete opaque crop collaborator: the identity. -/
def cropC : List Surface → TRect → ℝ → ℝ → ℝ → ℝ → List Surface × TRect :=
  fun s r _ _ _ _ => (s, r)

/-- Concrete opaque smoothing collaborator: the identity on the surfaces. -/
def smoothC : List ℝ → List Surface → List Surface := fun _ s => s

end

section Claims

/-- C1 (counterexample): the CovarianceSolver sums are not restricted to
non-missing bands.  For a two-band star whose second band has the sentinel
error `1e9`, the code's sums (over all bands) differ from the spec's
non-missing-only sums: the missing band still contributes `1/σ² = 1e-18`. -/
theorem c1_counterexample :
    star_covariance 2 gC2 3.1 obsC1 ≠ star_covariance_nonmissing_spec 2 gC2 3.1 obsC1 := by
  intro h
  have h1 := congrArg Prod.fst h
  simp only [star_covariance, star_covariance_nonmissing_spec, obsC1,
    Finset.sum_range_succ, Finset.sum_range_zero, Finset.sum_filter] at h1
  norm_num at h1

/-- C1 (amended): every sum of `star_covariance`, of the `star_max_likelihood`
right-hand sides, and of the chi-square runs over all bands: it splits into
the spec's non-missing part plus the missing part (bands with error ≥ 1e9),
and the missing part of `Σ 1/σᵢ²` is strictly positive whenever some band is
missing; the missing-band sentinel is honoured only by the passband count. -/
theorem c1_sums_include_missing_bands (n : ℕ) (g : ℝ → ℕ → ℝ) (RV : ℝ)
    (sed : TSED) (obs : TMagnitudes) (mu E : ℝ) :
    ((star_covariance n g RV obs).1 = (star_covariance_nonmissing_spec n g RV obs).1
        + ∑ i ∈ (Finset.range n).filter (fun i => (10:ℝ)^9 ≤ obs.err i),
            1 / (obs.err i * obs.err i))
    ∧ ((star_covariance n g RV obs).2.1 = (star_covariance_nonmissing_spec n g RV obs).2.1
        + ∑ i ∈ (Finset.range n).filter (fun i => (10:ℝ)^9 ≤ obs.err i),
            g RV i * (1 / (obs.err i * obs.err i)))
    ∧ ((star_covariance n g RV obs).2.2 = (star_covariance_nonmissing_spec n g RV obs).2.2
        + ∑ i ∈ (Finset.range n).filter (fun i => (10:ℝ)^9 ≤ obs.err i),
            g RV i * g RV i * (1 / (obs.err i * obs.err i)))
    ∧ ((fit_sums n g RV sed obs).1
        = (∑ i ∈ (Finset.range n).filter (fun i => ¬ ((10:ℝ)^9 ≤ obs.err i)),
            (obs.m i - sed.absmag i) * (1 / (obs.err i * obs.err i)))
        + ∑ i ∈ (Finset.range n).filter (fun i => (10:ℝ)^9 ≤ obs.err i),
            (obs.m i - sed.absmag i) * (1 / (obs.err i * obs.err i)))
    ∧ ((fit_sums n g RV sed obs).2
        = (∑ i ∈ (Finset.range n).filter (fun i => ¬ ((10:ℝ)^9 ≤ obs.err i)),
            (obs.m i - sed.absmag i) * g RV i * (1 / (obs.err i * obs.err i)))
        + ∑ i ∈ (Finset.range n).filter (fun i => (10:ℝ)^9 ≤ obs.err i),
            (obs.m i - sed.absmag i) * g RV i * (1 / (obs.err i * obs.err i)))
    ∧ (chi2_sum n g RV sed obs mu E
        = (∑ i ∈ (Finset.range n).filter (fun i => ¬ ((10:ℝ)^9 ≤ obs.err i)),
            ((obs.m i - sed.absmag i) - E * g RV i - mu)
              * ((obs.m i - sed.absmag i) - E * g RV i - mu)
              * (1 / (obs.err i * obs.err i)))
        + ∑ i ∈ (Finset.range n).filter (fun i => (10:ℝ)^9 ≤ obs.err i),
            ((obs.m i - sed.absmag i) - E * g RV i - mu)
              * ((obs.m i - sed.absmag i) - E * g RV i - mu)
              * (1 / (obs.err i * obs.err i)))
    ∧ (((Finset.range n).filter (fun i => (10:ℝ)^9 ≤ obs.err i)).Nonempty →
        0 < ∑ i ∈ (Finset.range n).filter (fun i => (10:ℝ)^9 ≤ obs.err i),
            1 / (obs.err i * obs.err i)) := by
  have hsplit : ∀ f : ℕ → ℝ,
      ∑ i ∈ Finset.range n, f i
        = (∑ i ∈ (Finset.range n).filter (fun i => ¬ ((10:ℝ)^9 ≤ obs.err i)), f i)
        + ∑ i ∈ (Finset.range n).filter (fun i => (10:ℝ)^9 ≤ obs.err i), f i := by
    intro f
    rw [add_comm, Finset.sum_filter_add_sum_filter_not]
  refine ⟨hsplit _, hsplit _, hsplit _, hsplit _, hsplit _, hsplit _, fun hne => ?_⟩
  refine Finset.sum_pos (fun i hi => ?_) hne
  have hbig : (10:ℝ)^9 ≤ obs.err i := (Finset.mem_filter.mp hi).2
  have hpos : 0 < obs.err i := lt_of_lt_of_le (by norm_num) hbig
  exact div_pos one_pos (mul_pos hpos hpos)

/-- C1 (witness): the amended theorem applied to the concrete star `obsC1`,
whose missing band makes the missing part of `Σ 1/σᵢ²` strictly positive. -/
theorem c1_witness :
    0 < ∑ i ∈ (Finset.range 2).filter (fun i => (10:ℝ)^9 ≤ obsC1.err i),
        1 / (obsC1.err i * obsC1.err i) := by
  have h := (c1_sums_include_missing_bands 2 gC2 3.1 sedC2 obsC1 0 0).2.2.2.2.2.2
  refine h ⟨1, Finset.mem_filter.mpr ⟨Finset.mem_range.mpr (by norm_num), ?_⟩⟩
  simp only [obsC1]
  norm_num

/-- C2: a star whose magnitudes are generated exactly from a known SED at
true `(μ, E)` (with positive errors) is recovered exactly by
`star_max_likelihood` run with the `star_covariance` scalars, with chi-square
zero, provided the 2×2 normal-equation system is non-degenerate
(`inv_cov_00 ≠ 0`, `inv_cov_11 ≠ 0` and nonzero determinant). -/
theorem c2_exact_recovery (n : ℕ) (g : ℝ → ℕ → ℝ) (RV : ℝ) (sed : TSED)
    (obs : TMagnitudes) (mu_true E_true : ℝ)
    (hgen : ∀ i < n, obs.m i = sed.absmag i + mu_true + E_true * g RV i)
    (herr : ∀ i < n, 0 < obs.err i)
    (h00 : (star_covariance n g RV obs).1 ≠ 0)
    (h11 : (star_covariance n g RV obs).2.2 ≠ 0)
    (hdet : (star_covariance n g RV obs).1 * (star_covariance n g RV obs).2.2
        - (star_covariance n g RV obs).2.1 * (star_covariance n g RV obs).2.1 ≠ 0) :
    star_max_likelihood n g RV sed obs (star_covariance n g RV obs).1
        (star_covariance n g RV obs).2.1 (star_covariance n g RV obs).2.2
      = (mu_true, E_true, 0) := by
  clear herr
  have e00 : (star_covariance n g RV obs).1
      = ∑ i ∈ Finset.range n, 1 / (obs.err i * obs.err i) := rfl
  have e01 : (star_covariance n g RV obs).2.1
      = ∑ i ∈ Finset.range n, g RV i * (1 / (obs.err i * obs.err i)) := rfl
  have e11 : (star_covariance n g RV obs).2.2
      = ∑ i ∈ Finset.range n, g RV i * g RV i * (1 / (obs.err i * obs.err i)) := rfl
  rw [e00] at h00
  rw [e11] at h11
  rw [e00, e01, e11] at hdet
  rw [e00, e01, e11]
  set S := ∑ i ∈ Finset.range n, 1 / (obs.err i * obs.err i) with hS
  set P := ∑ i ∈ Finset.range n, g RV i * (1 / (obs.err i * obs.err i)) with hP
  set Q := ∑ i ∈ Finset.range n, g RV i * g RV i * (1 / (obs.err i * obs.err i)) with hQ
  have hfit1 : (fit_sums n g RV sed obs).1 = mu_true * S + E_true * P := by
    show (∑ i ∈ Finset.range n, (obs.m i - sed.absmag i) * (1 / (obs.err i * obs.err i)))
        = mu_true * S + E_true * P
    rw [hS, hP, Finset.mul_sum, Finset.mul_sum, ← Finset.sum_add_distrib]
    refine Finset.sum_congr rfl fun i hi => ?_
    rw [hgen i (Finset.mem_range.mp hi)]
    ring
  have hfit2 : (fit_sums n g RV sed obs).2 = mu_true * P + E_true * Q := by
    show (∑ i ∈ Finset.range n,
          (obs.m i - sed.absmag i) * g RV i * (1 / (obs.err i * obs.err i)))
        = mu_true * P + E_true * Q
    rw [hP, hQ, Finset.mul_sum, Finset.mul_sum, ← Finset.sum_add_distrib]
    refine Finset.sum_congr rfl fun i hi => ?_
    rw [hgen i (Finset.mem_range.mp hi)]
    ring
  have hD : 1 - P / S * (P / Q) ≠ 0 := by
    rw [div_mul_div_comm, sub_ne_zero]
    intro h
    apply hdet
    have hPP := (div_eq_one_iff_eq (mul_ne_zero h00 h11)).mp h.symm
    rw [sub_eq_zero, hPP]
  have hmu : 1 / (1 - P / S * (P / Q))
      * ((mu_true * S + E_true * P) / S - P / S * ((mu_true * P + E_true * Q) / Q))
      = mu_true := by
    field_simp
    ring
  have hE : 1 / (1 - P / S * (P / Q))
      * ((mu_true * P + E_true * Q) / Q - P / Q * ((mu_true * S + E_true * P) / S))
      = E_true := by
    field_simp
    ring
  have hchi : chi2_sum n g RV sed obs mu_true E_true = 0 := by
    refine Finset.sum_eq_zero fun i hi => ?_
    rw [hgen i (Finset.mem_range.mp hi)]
    ring
  simp only [star_max_likelihood]
  rw [hfit1, hfit2, hmu, hE, hchi]

/-- C2 (witness): exact recovery at the concrete noiseless star `obsC2`
(generated from `sedC2` at `μ = 10`, `E = 2` with unit errors and
coefficients `gC2`). -/
theorem c2_witness :
    star_max_likelihood 2 gC2 3.1 sedC2 obsC2 (star_covariance 2 gC2 3.1 obsC2).1
        (star_covariance 2 gC2 3.1 obsC2).2.1 (star_covariance 2 gC2 3.1 obsC2).2.2
      = (10, 2, 0) := by
  refine c2_exact_recovery 2 gC2 3.1 sedC2 obsC2 10 2 (fun i _ => ?_) (fun i _ => ?_) ?_ ?_ ?_
  · simp [obsC2, sedC2, gC2]
  · simp [obsC2]
  · simp [star_covariance, obsC2, Finset.sum_range_succ]
  · simp [star_covariance, obsC2, gC2, Finset.sum_range_succ]
  · simp [star_covariance, obsC2, gC2, Finset.sum_range_succ]
    norm_num

/-- Every supersampled kernel sample is a positive Gaussian value. -/
lemma gf_img_sub_pos (b00 b01 b11 dx0 dx1 : ℝ) (s ws hs i j : ℕ) :
    0 < gf_img_sub b00 b01 b11 dx0 dx1 s ws hs i j :=
  Real.exp_pos _

/-- With a positive supersampling factor, every bin of the unnormalized
downsampled kernel is strictly positive. -/
lemma gf_down_pos (ic00 ic01 ic11 : ℝ) (rect : TRect) (n_sigma : ℝ)
    (min_width : ℕ) (add_diagonal : ℝ) (subsample : ℕ) (hs : 0 < subsample)
    (i j : ℕ) :
    0 < gf_down ic00 ic01 ic11 rect n_sigma min_width add_diagonal subsample i j := by
  unfold gf_down gf_area_downsample
  refine div_pos ?_ (by positivity)
  refine Finset.sum_pos (fun a _ => ?_) (Finset.nonempty_range_iff.mpr hs.ne')
  refine Finset.sum_pos (fun b _ => gf_img_sub_pos _ _ _ _ _ _ _ _ _ _)
    (Finset.nonempty_range_iff.mpr hs.ne')

/-- C3 (counterexample): in the broadening branch of `gaussian_filter` the
determinant is inverted without regularization.  At the finite inverse
covariance `(1, 1, 1)` with `add_diagonal = 1` and unit bin widths the branch
divides by the exactly-zero raw determinant, and its output differs from the
spec-mandated variant in which the tiny positive regularization is added to
each determinant before inversion. -/
theorem c3_counterexample :
    gf_broaden_det 1 1 1 = 0
    ∧ gf_broadened 1 1 1 1 1 1 ≠ gf_broadened_reg_spec 1 1 1 1 1 1 := by
  constructor
  · norm_num [gf_broaden_det]
  · intro h
    have h1 := congrArg Prod.fst h
    norm_num [gf_broadened, gf_broadened_reg_spec, gf_broaden_det] at h1

/-- C3 (amended): the tiny positive regularization `1e-5` is added only to
the determinant from which the per-axis sigmas are derived
(star_exact.cpp:275); the optional broadening branch inverts both matrices
with the raw, unregularized determinant (star_exact.cpp:259, 267). -/
theorem c3_regularization_sigma_only (b00 b01 b11 ic00 ic01 ic11 ad dx0 dx1 : ℝ)
    (had : 0 < ad) :
    gf_sigma_det b00 b01 b11 = gf_broaden_det b00 b01 b11 + 1 / 100000
    ∧ gf_sigma b00 b01 b11
        = (Real.sqrt (b11 / (gf_broaden_det b00 b01 b11 + 1 / 100000)),
           Real.sqrt (b00 / (gf_broaden_det b00 b01 b11 + 1 / 100000)))
    ∧ gf_broadened ic00 ic01 ic11 ad dx0 dx1
        = (let det := gf_broaden_det ic00 ic01 ic11
           let cov_00 := ic11 / det + ad * dx0 * (ad * dx0)
           let cov_11 := ic00 / det + ad * dx1 * (ad * dx1)
           let cov_01 := -ic01 / det
           let det2 := gf_broaden_det cov_00 cov_01 cov_11
           (cov_11 / det2, -cov_01 / det2, cov_00 / det2)) := by
  refine ⟨rfl, rfl, ?_⟩
  simp only [gf_broadened]
  rw [if_pos had]

/-- C3 (witness): the amended statement at the concrete input of the
counterexample. -/
theorem c3_witness :
    gf_sigma_det 1 1 1 = gf_broaden_det 1 1 1 + 1 / 100000
    ∧ gf_broadened 1 1 1 1 1 1
        = (let det := gf_broaden_det 1 1 1
           let cov_00 := 1 / det + 1 * 1 * (1 * 1)
           let cov_11 := 1 / det + 1 * 1 * (1 * 1)
           let cov_01 := -1 / det
           let det2 := gf_broaden_det cov_00 cov_01 cov_11
           (cov_11 / det2, -cov_01 / det2, cov_00 / det2)) := by
  obtain ⟨h1, -, h3⟩ :=
    c3_regularization_sigma_only 1 1 1 1 1 1 1 1 1 (by norm_num)
  exact ⟨h1, h3⟩

/-- C4: for every finite inverse covariance, positive bin widths, positive
`n_sigma` and positive supersampling factor, the `gaussian_filter` kernel has
value exactly 1 at its center bin `(width0, width1)`, is non-negative at
every bin, and its half-width along each axis equals
`max(min_width, ceil(n_sigma * sigma_axis / bin_width))`, hence is at least
the configured minimum. -/
theorem c4_kernel_invariants (ic00 ic01 ic11 : ℝ) (rect : TRect) (n_sigma : ℝ)
    (min_width : ℕ) (add_diagonal : ℝ) (subsample : ℕ) (ker : GFKernel)
    (hker : ker = gaussian_filter ic00 ic01 ic11 rect n_sigma min_width add_diagonal subsample)
    (hdx0 : 0 < rect.dx0) (hdx1 : 0 < rect.dx1) (hns : 0 < n_sigma)
    (hs : 0 < subsample) :
    ker.img ker.width0 ker.width1 = 1
    ∧ (∀ i j, 0 ≤ ker.img i j)
    ∧ ker.width0 = max min_width (Int.toNat ⌈n_sigma *
        (gf_sigma (gf_broadened ic00 ic01 ic11 add_diagonal rect.dx0 rect.dx1).1
          (gf_broadened ic00 ic01 ic11 add_diagonal rect.dx0 rect.dx1).2.1
          (gf_broadened ic00 ic01 ic11 add_diagonal rect.dx0 rect.dx1).2.2).1 / rect.dx0⌉)
    ∧ ker.width1 = max min_width (Int.toNat ⌈n_sigma *
        (gf_sigma (gf_broadened ic00 ic01 ic11 add_diagonal rect.dx0 rect.dx1).1
          (gf_broadened ic00 ic01 ic11 add_diagonal rect.dx0 rect.dx1).2.1
          (gf_broadened ic00 ic01 ic11 add_diagonal rect.dx0 rect.dx1).2.2).2 / rect.dx1⌉)
    ∧ min_width ≤ ker.width0 ∧ min_width ≤ ker.width1 := by
  subst hker
  have hc : 0 < gf_down ic00 ic01 ic11 rect n_sigma min_width add_diagonal subsample
      (gf_width0 ic00 ic01 ic11 rect n_sigma min_width add_diagonal)
      (gf_width1 ic00 ic01 ic11 rect n_sigma min_width add_diagonal) :=
    gf_down_pos ic00 ic01 ic11 rect n_sigma min_width add_diagonal subsample hs _ _
  refine ⟨div_self hc.ne', fun i j => ?_, rfl, rfl, le_max_left _ _, le_max_left _ _⟩
  exact div_nonneg
    (gf_down_pos ic00 ic01 ic11 rect n_sigma min_width add_diagonal subsample hs i j).le hc.le

/-- C4 (witness): the kernel invariants at a concrete input (identity inverse
covariance, unit bin widths, `n_sigma = 1`, `min_width = 0`, broadening off,
supersampling factor 1). -/
theorem c4_witness :
    (gaussian_filter 1 0 1 (mkTRect 0 0 1 1 1 1) 1 0 (-1) 1).img
        (gaussian_filter 1 0 1 (mkTRect 0 0 1 1 1 1) 1 0 (-1) 1).width0
        (gaussian_filter 1 0 1 (mkTRect 0 0 1 1 1 1) 1 0 (-1) 1).width1 = 1 := by
  refine (c4_kernel_invariants 1 0 1 (mkTRect 0 0 1 1 1 1) 1 0 (-1) 1 _ rfl ?_ ?_ ?_ ?_).1
  · simp [mkTRect]
  · simp [mkTRect]
  · norm_num
  · norm_num

/-- Reduction of `listMin` over a nonempty list always yields a value. -/
lemma listMin_cons_isSome (x : ℝ) (xs : List ℝ) : (listMin (x :: xs)).isSome := by
  cases h : listMin xs <;> simp [listMin, h]

/-- Reduction of `listMax` over a nonempty list always yields a value. -/
lemma listMax_cons_isSome (x : ℝ) (xs : List ℝ) : (listMax (x :: xs)).isSome := by
  cases h : listMax xs <;> simp [listMax, h]

/-- The empty-range reduction is the only way `listMin` yields nothing. -/
lemma listMin_eq_none_iff (l : List ℝ) : listMin l = none ↔ l = [] := by
  cases l with
  | nil => simp [listMin]
  | cons x xs =>
    simp only [List.cons_ne_nil, iff_false]
    intro h
    have := listMin_cons_isSome x xs
    rw [h] at this
    simp at this

/-- The empty-range reduction is the only way `listMax` yields nothing. -/
lemma listMax_eq_none_iff (l : List ℝ) : listMax l = none ↔ l = [] := by
  cases l with
  | nil => simp [listMax]
  | cons x xs =>
    simp only [List.cons_ne_nil, iff_false]
    intro h
    have := listMax_cons_isSome x xs
    rw [h] at this
    simp at this

/-- A deposit step is a pointwise additive update: it adds the record's
log-domain weight times its bilinear distribution. -/
lemma depositRecord_eq_add (rect : TRect) (cmin pmax : ℝ) (img : Surface)
    (r : FitRecord) :
    depositRecord rect cmin pmax img r = fun x y => img x y
      + Real.exp (-(1/2) * (r.chi2 - cmin) + (r.prior - pmax)) * bilinCoeff rect r x y := by
  funext x y
  unfold depositRecord bilinCoeff
  cases h : get_interpolant rect r.E r.mu with
  | none => simp
  | some q =>
    obtain ⟨i0, i1, a0, a1⟩ := q
    simp only
    split_ifs <;> ring

/-- Folding deposits over any record list starting from any image adds the
sum of the per-record contributions. -/
lemma foldl_deposit_eq (rect : TRect) (cmin pmax : ℝ) (records : List FitRecord) :
    ∀ (img : Surface) (x y : ℤ),
      records.foldl (depositRecord rect cmin pmax) img x y
        = img x y + (records.map (fun r =>
            Real.exp (-(1/2) * (r.chi2 - cmin) + (r.prior - pmax))
              * bilinCoeff rect r x y)).sum := by
  induction records with
  | nil => intro img x y; simp
  | cons r rs ih =>
    intro img x y
    rw [List.foldl_cons, List.map_cons, List.sum_cons, ih, depositRecord_eq_add]
    ring

/-- The deposited surface is the sum over recorded cells of
`exp(-½(chi² - chi²_min) + (prior - prior_max))` times the cell's bilinear
distribution. -/
lemma deposit_surface_eq_sum (rect : TRect) (cmin pmax : ℝ)
    (records : List FitRecord) (x y : ℤ) :
    deposit_surface rect cmin pmax records x y
      = (records.map (fun r =>
          Real.exp (-(1/2) * (r.chi2 - cmin) + (r.prior - pmax))
            * bilinCoeff rect r x y)).sum := by
  unfold deposit_surface
  rw [foldl_deposit_eq]
  simp

/-- C5: the grid marginalizer is two-pass.  When the record list of the full
grid sweep is nonempty, `chi2_min` and `prior_max` are its `listMin`/`listMax`
reductions, the function returns the convolved deposit surface built with
those global anchors, and the deposited surface equals the sum over all
recorded cells of `exp(-½(chi² - chi²_min) + (prior - prior_max))` times the
cell's bilinear distribution. -/
theorem c5_two_pass_deposit (n : ℕ) (get_A : ℝ → ℕ → ℝ) (sm : TStellarModel)
    (los : TGalacticLOSModel) (obs : TMagnitudes) (rect : TRect)
    (use_priors use_gaia : Bool) (RV : ℝ) (verbosity : ℕ)
    (records : List FitRecord) (chi2_min prior_max : ℝ)
    (hrec : records = ml_records n get_A sm los obs (star_covariance n get_A RV obs).1
        (star_covariance n get_A RV obs).2.1 (star_covariance n get_A RV obs).2.2
        use_priors use_gaia RV)
    (hmin : listMin (records.map FitRecord.chi2) = some chi2_min)
    (hmax : listMax (records.map FitRecord.prior) = some prior_max) :
    integrate_ML_solution n get_A sm los obs rect use_priors use_gaia RV verbosity
      = some
        (filter2D
          (gaussian_filter (star_covariance n get_A RV obs).2.2
            (star_covariance n get_A RV obs).2.1 (star_covariance n get_A RV obs).1
            rect 5 2 1 verbosity)
          (deposit_surface rect chi2_min prior_max records),
         chi2_min / (n_passbands n obs : ℝ))
    ∧ ∀ x y, deposit_surface rect chi2_min prior_max records x y
        = (records.map (fun r =>
            Real.exp (-(1/2) * (r.chi2 - chi2_min) + (r.prior - prior_max))
              * bilinCoeff rect r x y)).sum := by
  constructor
  · simp only [integrate_ML_solution]
    rw [← hrec, hmax, hmin]
  · exact fun x y => deposit_surface_eq_sum rect chi2_min prior_max records x y

/-- Record list of the one-cell library `smC` with priors off: a single
record holding the ML fit against `sedC2` and zero prior. -/
lemma ml_records_smC (n : ℕ) (g : ℝ → ℕ → ℝ) (los : TGalacticLOSModel)
    (obs : TMagnitudes) (ic00 ic01 ic11 RV : ℝ) :
    ml_records n g smC los obs ic00 ic01 ic11 false false RV
      = [{ E := (star_max_likelihood n g RV sedC2 obs ic00 ic01 ic11).2.1,
           mu := (star_max_likelihood n g RV sedC2 obs ic00 ic01 ic11).1,
           chi2 := (star_max_likelihood n g RV sedC2 obs ic00 ic01 ic11).2.2,
           prior := 0 }] := by
  simp [ml_records, smC, List.range_succ, List.range_zero, List.flatMap_cons,
    List.flatMap_nil, List.filterMap_cons, List.filterMap_nil]

/-- Numeric evaluation of the ML fit of the noiseless star `obsC2` against
`sedC2`: exactly `(μ, E, chi²) = (10, 2, 0)`. -/
lemma obsC2_ml_eval :
    star_max_likelihood 2 gC2 3.1 sedC2 obsC2 (star_covariance 2 gC2 3.1 obsC2).1
        (star_covariance 2 gC2 3.1 obsC2).2.1 (star_covariance 2 gC2 3.1 obsC2).2.2
      = (10, 2, 0) := by
  simp only [star_max_likelihood, fit_sums, chi2_sum, star_covariance, obsC2, sedC2, gC2,
    Finset.sum_range_succ, Finset.sum_range_zero]
  norm_num

/-- C5 (witness): the two-pass characterization applied to the concrete
noiseless star `obsC2` against the one-cell library `smC` on the grid
`rectC`, where `chi2_min = 0` and `prior_max = 0`. -/
theorem c5_witness :
    integrate_ML_solution 2 gC2 smC losC obsC2 rectC false false 3.1 1
      = some
        (filter2D
          (gaussian_filter (star_covariance 2 gC2 3.1 obsC2).2.2
            (star_covariance 2 gC2 3.1 obsC2).2.1 (star_covariance 2 gC2 3.1 obsC2).1
            rectC 5 2 1 1)
          (deposit_surface rectC 0 0
            (ml_records 2 gC2 smC losC obsC2 (star_covariance 2 gC2 3.1 obsC2).1
              (star_covariance 2 gC2 3.1 obsC2).2.1 (star_covariance 2 gC2 3.1 obsC2).2.2
              false false 3.1)),
         0 / (n_passbands 2 obsC2 : ℝ)) := by
  refine (c5_two_pass_deposit 2 gC2 smC losC obsC2 rectC false false 3.1 1
    _ 0 0 rfl ?_ ?_).1
  · rw [ml_records_smC]
    simp [obsC2_ml_eval, listMin]
  · rw [ml_records_smC]
    simp [listMax]

/-- C6 (counterexample): a star with zero non-missing bands (every error
`2e9 > 1e9`) is not rejected at entry: evaluation runs the full grid and
produces a normal result (while its passband count is 0, so the C++ final
division `chi2_min / n_passbands` divides by zero instead of failing fast
with a descriptive condition). -/
theorem c6_counterexample :
    (integrate_ML_solution 2 gC2 smC losC obsC6 rectC false false 3.1 1).isSome = true
    ∧ n_passbands 2 obsC6 = 0 := by
  constructor
  · simp only [integrate_ML_solution, ml_records_smC, List.map_cons, List.map_nil]
    simp [listMax, listMin]
  · unfold n_passbands
    rw [Finset.card_eq_zero, Finset.filter_eq_empty_iff]
    intro i _
    simp only [obsC6, not_not]
    norm_num

/-- C6 (amended): `integrate_ML_solution` performs no zero-band entry check:
for a star whose every band error exceeds the `1e9` sentinel, the passband
count is zero, yet evaluation proceeds through the full grid and returns a
normal value (the C++ then divides `chi2_min` by the zero passband count —
an IEEE division by zero — rather than failing fast); the sentinel is
consulted only by the final passband count. -/
theorem c6_no_entry_check (n : ℕ) (get_A : ℝ → ℕ → ℝ) (sm : TStellarModel)
    (los : TGalacticLOSModel) (obs : TMagnitudes) (rect : TRect)
    (use_priors use_gaia : Bool) (RV : ℝ) (verbosity : ℕ)
    (hmiss : ∀ i < n, (10:ℝ)^9 < obs.err i)
    (hrec : ml_records n get_A sm los obs (star_covariance n get_A RV obs).1
        (star_covariance n get_A RV obs).2.1 (star_covariance n get_A RV obs).2.2
        use_priors use_gaia RV ≠ []) :
    n_passbands n obs = 0
    ∧ (integrate_ML_solution n get_A sm los obs rect use_priors use_gaia RV
        verbosity).isSome = true := by
  constructor
  · unfold n_passbands
    rw [Finset.card_eq_zero, Finset.filter_eq_empty_iff]
    intro i hi
    simp only [not_not]
    exact hmiss i (Finset.mem_range.mp hi)
  · obtain ⟨r, rs, hcons⟩ := List.exists_cons_of_ne_nil hrec
    obtain ⟨pm, hpm⟩ := Option.isSome_iff_exists.mp
      (listMax_cons_isSome (FitRecord.prior r) (rs.map FitRecord.prior))
    obtain ⟨cm, hcm⟩ := Option.isSome_iff_exists.mp
      (listMin_cons_isSome (FitRecord.chi2 r) (rs.map FitRecord.chi2))
    simp only [integrate_ML_solution, hcons, List.map_cons, hpm, hcm]
    rfl

/-- C6 (witness): the amended statement at the concrete all-missing-band star
`obsC6` with the one-cell library `smC`. -/
theorem c6_witness :
    n_passbands 2 obsC6 = 0
    ∧ (integrate_ML_solution 2 gC2 smC losC obsC6 rectC false false 3.1 2).isSome = true := by
  refine c6_no_entry_check 2 gC2 smC losC obsC6 rectC false false 3.1 2
    (fun i _ => ?_) ?_
  · simp only [obsC6]
    norm_num
  · rw [ml_records_smC]
    simp

/-- C7: out-of-bounds cells are silently dropped.  An in-bounds interpolant
guarantees all four neighboring bins of the bilinear deposit lie inside the
grid; a record whose `(E, μ)` is out of bounds leaves the surface untouched;
and when every recorded cell is out of bounds (records nonempty), the
function still returns a surface that is zero everywhere along with its
chi-square value, without failing. -/
theorem c7_out_of_bounds_cells_dropped (n : ℕ) (get_A : ℝ → ℕ → ℝ)
    (sm : TStellarModel) (los : TGalacticLOSModel) (obs : TMagnitudes)
    (rect : TRect) (use_priors use_gaia : Bool) (RV : ℝ) (verbosity : ℕ)
    (hall : ∀ r ∈ ml_records n get_A sm los obs (star_covariance n get_A RV obs).1
        (star_covariance n get_A RV obs).2.1 (star_covariance n get_A RV obs).2.2
        use_priors use_gaia RV, get_interpolant rect r.E r.mu = none)
    (hne : ml_records n get_A sm los obs (star_covariance n get_A RV obs).1
        (star_covariance n get_A RV obs).2.1 (star_covariance n get_A RV obs).2.2
        use_priors use_gaia RV ≠ []) :
    (∀ x y i0 i1 a0 a1, get_interpolant rect x y = some (i0, i1, a0, a1) →
        i0 + 1 < rect.N0 ∧ i1 + 1 < rect.N1)
    ∧ (∀ (img : Surface) cmin pmax r, get_interpolant rect r.E r.mu = none →
        depositRecord rect cmin pmax img r = img)
    ∧ ∃ q, integrate_ML_solution n get_A sm los obs rect use_priors use_gaia RV verbosity
        = some ((fun _ _ => 0), q) := by
  refine ⟨?_, ?_, ?_⟩
  · intro x y i0 i1 a0 a1 h
    simp only [get_interpolant] at h
    split_ifs at h with hc
    · rw [Option.some_inj] at h
      have e1 : (⌊(x - rect.min0) / rect.dx0⌋).toNat = i0 := congrArg (fun p => p.1) h
      have e2 : (⌊(y - rect.min1) / rect.dx1⌋).toNat = i1 := congrArg (fun p => p.2.1) h
      obtain ⟨h1, h2, h3, h4⟩ := hc
      subst e1
      subst e2
      omega
  · intro img cmin pmax r h
    simp only [depositRecord, h]
  · obtain ⟨r, rs, hcons⟩ := List.exists_cons_of_ne_nil hne
    obtain ⟨pm, hpm⟩ := Option.isSome_iff_exists.mp
      (listMax_cons_isSome (FitRecord.prior r) (rs.map FitRecord.prior))
    obtain ⟨cm, hcm⟩ := Option.isSome_iff_exists.mp
      (listMin_cons_isSome (FitRecord.chi2 r) (rs.map FitRecord.chi2))
    refine ⟨cm / (n_passbands n obs : ℝ), ?_⟩
    have hdep : ∀ x y, deposit_surface rect cm pm (r :: rs) x y = 0 := by
      intro x y
      rw [deposit_surface_eq_sum]
      refine List.sum_eq_zero fun v hv => ?_
      obtain ⟨r', hr', rfl⟩ := List.mem_map.mp hv
      have hb : bilinCoeff rect r' x y = 0 := by
        unfold bilinCoeff
        rw [hall r' (hcons ▸ hr')]
      rw [hb, mul_zero]
    have hzero : filter2D (gaussian_filter (star_covariance n get_A RV obs).2.2
        (star_covariance n get_A RV obs).2.1 (star_covariance n get_A RV obs).1
        rect 5 2 1 verbosity) (deposit_surface rect cm pm (r :: rs))
        = fun _ _ => (0 : ℝ) := by
      funext x y
      simp [filter2D, hdep]
    simp only [integrate_ML_solution, hcons, List.map_cons, hpm, hcm]
    rw [hzero]

/-- Numeric evaluation of the ML fit of `obsC7` against `sedC2`:
`(μ, E, chi²) = (100, 0, 0)`, with `μ = 100` far outside `rectC`. -/
lemma obsC7_ml_eval :
    star_max_likelihood 2 gC2 3.1 sedC2 obsC7 (star_covariance 2 gC2 3.1 obsC7).1
        (star_covariance 2 gC2 3.1 obsC7).2.1 (star_covariance 2 gC2 3.1 obsC7).2.2
      = (100, 0, 0) := by
  simp only [star_max_likelihood, fit_sums, chi2_sum, star_covariance, obsC7, sedC2, gC2,
    Finset.sum_range_succ, Finset.sum_range_zero]
  norm_num

/-- The coordinate `(E, μ) = (0, 100)` lies outside the μ-range of `rectC`. -/
lemma interp_rectC_out : get_interpolant rectC 0 100 = none := by
  simp only [get_interpolant, rectC, mkTRect]
  norm_num

/-- C7 (witness): the out-of-bounds guarantee applied to the concrete star
`obsC7`, whose single recorded cell has `μ = 100` outside `rectC`: evaluation
still yields a result. -/
theorem c7_witness :
    (integrate_ML_solution 2 gC2 smC losC obsC7 rectC false false 3.1 1).isSome = true := by
  have h := c7_out_of_bounds_cells_dropped 2 gC2 smC losC obsC7 rectC false false 3.1 1
    (by
      rw [ml_records_smC]
      intro r hr
      simp only [List.mem_singleton] at hr
      subst hr
      simp only [obsC7_ml_eval]
      exact interp_rectC_out)
    (by rw [ml_records_smC]; simp)
  obtain ⟨-, -, q, hq⟩ := h
  rw [hq]
  rfl

/-- C10: `integrate_ML_solution` is well-defined only when at least one grid
cell yields a SED: its result is the undefined empty-range reduction (modelled
`none`) exactly when every `(Mr, FeH)` lookup in the library grid fails, so
the skip-and-continue tolerance for absent cells does not extend to an
entirely absent library. -/
theorem c10_empty_library_undefined (n : ℕ) (get_A : ℝ → ℕ → ℝ)
    (sm : TStellarModel) (los : TGalacticLOSModel) (obs : TMagnitudes)
    (rect : TRect) (use_priors use_gaia : Bool) (RV : ℝ) (verbosity : ℕ) :
    integrate_ML_solution n get_A sm los obs rect use_priors use_gaia RV verbosity = none
      ↔ ∀ Mr_idx < sm.N_Mr, ∀ FeH_idx < sm.N_FeH, sm.get_sed Mr_idx FeH_idx = none := by
  have hnone : (integrate_ML_solution n get_A sm los obs rect use_priors use_gaia RV
        verbosity = none)
      ↔ ml_records n get_A sm los obs (star_covariance n get_A RV obs).1
          (star_covariance n get_A RV obs).2.1 (star_covariance n get_A RV obs).2.2
          use_priors use_gaia RV = [] := by
    simp only [integrate_ML_solution]
    cases hr : ml_records n get_A sm los obs (star_covariance n get_A RV obs).1
        (star_covariance n get_A RV obs).2.1 (star_covariance n get_A RV obs).2.2
        use_priors use_gaia RV with
    | nil => simp [listMax, listMin]
    | cons r rs =>
      obtain ⟨pm, hpm⟩ := Option.isSome_iff_exists.mp
        (listMax_cons_isSome (FitRecord.prior r) (rs.map FitRecord.prior))
      obtain ⟨cm, hcm⟩ := Option.isSome_iff_exists.mp
        (listMin_cons_isSome (FitRecord.chi2 r) (rs.map FitRecord.chi2))
      simp [List.map_cons, hpm, hcm]
  rw [hnone]
  unfold ml_records
  rw [List.flatMap_eq_nil_iff]
  constructor
  · intro h a ha b hb
    have h2 := List.filterMap_eq_nil_iff.mp (h a (List.mem_range.mpr ha)) b
      (List.mem_range.mpr hb)
    cases hsed : sm.get_sed a b with
    | none => rfl
    | some p =>
      rw [hsed] at h2
      exact absurd h2 (by simp)
  · intro h a ha
    rw [List.filterMap_eq_nil_iff]
    intro b hb
    rw [h a (List.mem_range.mp ha) b (List.mem_range.mp hb)]

/-- C10 (witness): with the library `smFail`, whose every lookup fails, the
evaluation has no defined result. -/
theorem c10_witness :
    integrate_ML_solution 2 gC2 smFail losC obsC2 rectC false false 3.1 1 = none := by
  exact (c10_empty_library_undefined 2 gC2 smFail losC obsC2 rectC false false 3.1 1).mpr
    (fun _ _ _ _ => rfl)

/-- C8: pixel evaluation is deterministic.  The embedding of
`grid_eval_stars` is a pure function of exactly the listed inputs, so two
runs on identical inputs (same stars, models, collaborators and options)
produce identical per-star surfaces and chi-square lists; no hidden state
enters the result. -/
theorem c8_deterministic
    (n₁ n₂ : ℕ) (g₁ g₂ : ℝ → ℕ → ℝ) (los₁ los₂ : TGalacticLOSModel)
    (sm₁ sm₂ : TStellarModel) (stars₁ stars₂ : List TMagnitudes) (ns₁ ns₂ : ℕ)
    (ebv₁ ebv₂ : TEBVSmoothing)
    (crop₁ crop₂ : List Surface → TRect → ℝ → ℝ → ℝ → ℝ → List Surface × TRect)
    (sm_op₁ sm_op₂ : List ℝ → List Surface → List Surface)
    (up₁ up₂ ug₁ ug₂ : Bool) (RV₁ RV₂ : ℝ) (v₁ v₂ : ℕ)
    (hn : n₁ = n₂) (hg : g₁ = g₂) (hlos : los₁ = los₂) (hsm : sm₁ = sm₂)
    (hstars : stars₁ = stars₂) (hns : ns₁ = ns₂) (hebv : ebv₁ = ebv₂)
    (hcrop : crop₁ = crop₂) (hsmop : sm_op₁ = sm_op₂) (hup : up₁ = up₂)
    (hug : ug₁ = ug₂) (hRV : RV₁ = RV₂) (hv : v₁ = v₂) :
    grid_eval_stars n₁ g₁ los₁ sm₁ stars₁ ns₁ ebv₁ crop₁ sm_op₁ up₁ ug₁ RV₁ v₁
      = grid_eval_stars n₂ g₂ los₂ sm₂ stars₂ ns₂ ebv₂ crop₂ sm_op₂ up₂ ug₂ RV₂ v₂ := by
  subst hn
  subst hg
  subst hlos
  subst hsm
  subst hstars
  subst hns
  subst hebv
  subst hcrop
  subst hsmop
  subst hup
  subst hug
  subst hRV
  subst hv
  rfl

/-- C8 (witness): two runs on an identical concrete input bundle coincide. -/
theorem c8_witness :
    grid_eval_stars 2 gC2 losC smC [obsC2] 16 ebvC cropC smoothC false false 3.1 1
      = grid_eval_stars 2 gC2 losC smC [obsC2] 16 ebvC cropC smoothC false false 3.1 1 :=
  c8_deterministic 2 2 gC2 gC2 losC losC smC smC [obsC2] [obsC2] 16 16 ebvC ebvC
    cropC cropC smoothC smoothC false false false false 3.1 3.1 1 1
    rfl rfl rfl rfl rfl rfl rfl rfl rfl rfl rfl rfl rfl

/-- C9: when the pixel-wide second smoothing pass runs
(`pct_smoothing_max > 0`), the width applied at extinction-bin `i` is the
base width at `i` times `i` (so bin 0 gets zero width), and the pass is
applied exactly once, to the cropped surfaces of all stars, after every
star's individual surface has been produced. -/
theorem c9_smoothing_scales_with_bin_index (sigma : List ℝ) (n : ℕ)
    (get_A : ℝ → ℕ → ℝ) (los : TGalacticLOSModel) (sm : TStellarModel)
    (stars : List TMagnitudes) (nside : ℕ) (ebv : TEBVSmoothing)
    (crop_op : List Surface → TRect → ℝ → ℝ → ℝ → ℝ → List Surface × TRect)
    (smooth_op : List ℝ → List Surface → List Surface)
    (use_priors use_gaia : Bool) (RV : ℝ) (verbosity : ℕ)
    (results : List (Surface × ℝ))
    (hmapM : stars.mapM (fun s => integrate_ML_solution n get_A sm los s grid_eval_rect
        use_priors use_gaia RV verbosity) = some results)
    (hpct : 0 < ebv.pct_smoothing_max) :
    (∀ i, i < sigma.length →
        (ebv_sigma_scaled sigma).getD i 0 = sigma.getD i 0 * (i : ℝ))
    ∧ (0 < sigma.length → (ebv_sigma_scaled sigma).getD 0 0 = 0)
    ∧ grid_eval_stars n get_A los sm stars nside ebv crop_op smooth_op
        use_priors use_gaia RV verbosity
        = some
          (smooth_op
            (ebv_sigma_scaled
              (ebv.calc_pct_smoothing nside
                (crop_op (results.map Prod.fst) grid_eval_rect 0 7 4 19).2.min0
                (crop_op (results.map Prod.fst) grid_eval_rect 0 7 4 19).2.max0
                (crop_op (results.map Prod.fst) grid_eval_rect 0 7 4 19).2.N0))
            (crop_op (results.map Prod.fst) grid_eval_rect 0 7 4 19).1,
           results.map Prod.snd) := by
  have hscale : ∀ i, i < sigma.length →
      (ebv_sigma_scaled sigma).getD i 0 = sigma.getD i 0 * (i : ℝ) := by
    intro i hi
    unfold ebv_sigma_scaled
    have hl : i < (sigma.enum.map (fun p => p.2 * (p.1 : ℝ))).length := by simpa using hi
    rw [List.getD_eq_getElem _ _ hl, List.getElem_map, List.getElem_enum,
      List.getD_eq_getElem _ _ hi]
  refine ⟨hscale, fun hlen => ?_, ?_⟩
  · rw [hscale 0 hlen]
    simp
  · simp only [grid_eval_stars, hmapM]
    rw [if_pos hpct]

/-- C9 (witness): the scaled-width law and the post-star smoothing pass at a
concrete pixel: base widths `[5, 7]`, an empty star list, and the concrete
collaborators `ebvC`, `cropC`, `smoothC`. -/
theorem c9_witness :
    (ebv_sigma_scaled [(5:ℝ), 7]).getD 1 0 = ([(5:ℝ), 7]).getD 1 0 * ((1:ℕ) : ℝ) := by
  exact (c9_smoothing_scales_with_bin_index [(5:ℝ), 7] 2 gC2 losC smC [] 16 ebvC cropC
    smoothC false false 3.1 1 [] rfl (by norm_num [ebvC])).1 1 (by norm_num)

end Claims

end Bayestar
